import Mathlib

/-!
Verification of the Online Chat Messenger protocol/session core.

Shallow embedding of `src/common/protocol.py` and `src/server.py`.

Modelling conventions:
* Python `bytes` values are `List Nat` with every element `< 256`.
* Python `str` values that travel on the wire are represented by their UTF-8
  byte sequences (`List Nat`); validity of those bytes is checked by
  `utf8Valid`, which models CPython's strict UTF-8 decoder (rejecting
  continuation-lead bytes, overlong forms, surrogates and code points above
  U+10FFFF).
* IP addresses are abstract `String`s; ports are `Int` (Python ints).
* Python exceptions become `Except` errors: `ValueError` raised by the
  codec's explicit checks is `EncodeError.validationError` / a `FormatError`
  constructor, while `OverflowError` raised by `int.to_bytes(1, "big")` on an
  out-of-range value is `EncodeError.overflowError` (a distinct exception
  class in Python).
* CPython's `int(str)` is modelled by `pyIntParse` for ASCII arguments:
  optional surrounding ASCII whitespace, an optional sign, and decimal
  digits with single underscores allowed between digits.  (Non-ASCII digit
  or space code points that `int()` would also accept are outside the
  modelled scope; theorems that rely on the exact behaviour of the parser
  carry an ASCII hypothesis on the parsed field.)
-/

/-- Model of a Python byte-string slice `l[start:stop]` with a non-negative
`start` and an arbitrary (possibly negative) integer `stop`: a negative stop
counts from the end of the list, and both bounds clamp. -/
def pySliceNatStart (l : List Nat) (start : Nat) (stop : Int) : List Nat :=
  let stopN : Nat :=
    if stop < 0 then ((l.length : Int) + stop).toNat
    else min stop.toNat l.length
  (l.take stopN).drop start

/-- ASCII whitespace bytes stripped by Python's `int()` / `str.strip()`. -/
def isSpaceByte (b : Nat) : Bool :=
  b = 32 || b = 9 || b = 10 || b = 13 || b = 11 || b = 12

/-- ASCII decimal digit byte. -/
def isDigitByte (b : Nat) : Bool :=
  decide (48 ≤ b ∧ b ≤ 57)

/-- Strip leading and trailing ASCII whitespace (Python `int()` argument
normalisation). -/
def stripSpaces (l : List Nat) : List Nat :=
  ((l.dropWhile isSpaceByte).reverse.dropWhile isSpaceByte).reverse

/-- Accumulating digit scanner for `pyIntParse`: digits, with a single
underscore permitted between two digits (CPython numeric-literal rule).
`afterUnd` records that the previous byte was an underscore, which must be
followed by a digit. -/
def parseDigitsCore (a : Nat) (afterUnd : Bool) : List Nat → Option Nat
  | [] => if afterUnd then none else some a
  | b :: rest =>
    if isDigitByte b then parseDigitsCore (10 * a + (b - 48)) false rest
    else if b = 95 then
      if afterUnd then none else parseDigitsCore a true rest
    else none

/-- Parse a non-empty digit run (leading underscore not allowed). -/
def parseDigits : List Nat → Option Nat
  | [] => none
  | b :: rest => if isDigitByte b then parseDigitsCore 0 false (b :: rest) else none

/-- The sign-and-digits stage of `int()`, applied after whitespace
stripping. -/
def pyIntParseSigned : List Nat → Option Int
  | [] => none
  | b :: rest =>
    if b = 43 then (parseDigits rest).map (fun m => (m : Int))
    else if b = 45 then (parseDigits rest).map (fun m => -(m : Int))
    else (parseDigits (b :: rest)).map (fun m => (m : Int))

/-- Model of CPython `int(s)` on an ASCII byte string: strip whitespace,
optional `+`/`-` sign, then digits with optional single underscores. -/
def pyIntParse (l : List Nat) : Option Int :=
  pyIntParseSigned (stripSpaces l)

/-- The fixed-width zero-padded decimal rendering `f"\x7bn:0wd\x7d"` used for the
29-byte `OperationPayloadSize` header field, as ASCII digit bytes.  Faithful
to the Python f-string for every `n < 10 ^ w` (the encoder's size guard
keeps `n ≤ 2 ^ 29 < 10 ^ 29`, so the width is always exactly `w`). -/
def decField (w n : Nat) : List Nat :=
  (List.range w).reverse.map (fun i => n / 10 ^ i % 10 + 48)

/-- State machine for strict UTF-8 validation.  The state is `none` at a
character boundary, or `some (need, lo, hi)` when `need` continuation
bytes are still expected, the next one constrained to `[lo, hi)` (the
first continuation byte of a sequence carries the lead-byte-specific
range that excludes overlong forms, surrogates and code points above
U+10FFFF; later ones use the generic `[128, 192)`). -/
def utf8Aux : Option (Nat × Nat × Nat) → List Nat → Bool
  | none, [] => true
  | some _, [] => false
  | none, b :: rest =>
    if b < 128 then utf8Aux none rest
    else if b < 194 then false
    else if b < 224 then utf8Aux (some (1, 128, 192)) rest
    else if b = 224 then utf8Aux (some (2, 160, 192)) rest
    else if b < 237 then utf8Aux (some (2, 128, 192)) rest
    else if b = 237 then utf8Aux (some (2, 128, 160)) rest
    else if b < 240 then utf8Aux (some (2, 128, 192)) rest
    else if b = 240 then utf8Aux (some (3, 144, 192)) rest
    else if b < 244 then utf8Aux (some (3, 128, 192)) rest
    else if b = 244 then utf8Aux (some (3, 128, 144)) rest
    else false
  | some (need, lo, hi), b :: rest =>
    if lo ≤ b ∧ b < hi then
      if need ≤ 1 then utf8Aux none rest
      else utf8Aux (some (need - 1, 128, 192)) rest
    else false

/-- Strict UTF-8 validity of a byte sequence, as checked by CPython's
`bytes.decode("utf-8")`: rejects lone continuation bytes, truncated
sequences, overlong encodings (C0/C1, E0 80–9F, F0 80–8F), surrogates
(ED A0–BF) and code points above U+10FFFF (F4 90+, F5–FF). -/
def utf8Valid (l : List Nat) : Bool :=
  utf8Aux none l

/-- UTF-8 bytes of an ASCII string literal (all the literals the server
builds are ASCII, where UTF-8 bytes coincide with code points). -/
def strBytes (s : String) : List Nat :=
  s.data.map Char.toNat

/-- Exceptions raised by the encoders: the explicit `raise ValueError`
size checks, and the `OverflowError` that `len(...).to_bytes(1, "big")`
raises when the length does not fit one byte. -/
inductive EncodeError where
  | validationError
  | overflowError
deriving DecidableEq, Repr

/-- Exceptions raised by the decoders; all of them are `ValueError`s in the
Python source (`UnicodeDecodeError` is a subclass of `ValueError`). -/
inductive FormatError where
  | headerTooShort
  | invalidSizeField
  | bodyTooShort
  | unicodeError
deriving DecidableEq, Repr

/-- `n.to_bytes(1, "big")`: the byte itself if it fits, else `OverflowError`. -/
def toBytes1 (n : Nat) : Except EncodeError Nat :=
  if n < 256 then .ok n else .error .overflowError

/-- Protocol constants from `protocol.py` / `server.py`. -/
def TCP_HEADER_SIZE : Nat := 32
def TCP_ROOMNAME_SIZE : Nat := 2 ^ 8
def TCP_PAYLOAD_MAX : Nat := 2 ^ 29
def TCP_PAYLOAD_FIELD_WIDTH : Nat := 29
def UDP_HEADER_SIZE : Nat := 2
def UDP_FIELD_MAX : Nat := 2 ^ 8
def UDP_SERVER_PORT : Int := 9001

/-- A decoded TCRP control-plane frame (`decode_tcp_message` result dict).
`room_name` is kept as its UTF-8 bytes; `op_payload` is raw bytes. -/
structure TcpMessage where
  room_name : List Nat
  operation : Nat
  state : Nat
  op_payload : List Nat
deriving DecidableEq, Repr

/-- A decoded relay-plane datagram (`decode_udp_message` result dict);
all three fields are UTF-8 strings, kept as their bytes. -/
structure UdpMessage where
  room_name : List Nat
  token : List Nat
  message : List Nat
deriving DecidableEq, Repr

/-- `protocol.encode_tcp_message`.  The source's two internal consistency
checks (size field exactly 29 bytes, header exactly 32 bytes) always hold
here because `decField 29` is fixed-width and the payload guard bounds the
length below `10 ^ 29`. -/
def encode_tcp_message (room_name : List Nat) (operation state : Nat)
    (op_payload : List Nat) : Except EncodeError (List Nat) :=
  if room_name.length > TCP_ROOMNAME_SIZE then .error .validationError
  else if op_payload.length > TCP_PAYLOAD_MAX then .error .validationError
  else do
    let rns ← toBytes1 room_name.length
    let opB ← toBytes1 operation
    let stB ← toBytes1 state
    .ok ([rns, opB, stB] ++ decField TCP_PAYLOAD_FIELD_WIDTH op_payload.length
          ++ room_name ++ op_payload)

/-- `protocol.decode_tcp_message`.  The 29-byte size field is UTF-8 decoded
and fed to `int()`; both a `UnicodeDecodeError` and an `int()` failure are
caught and re-raised as the same `ValueError` in the source.  The body
slices use Python slice semantics (`pySliceNatStart`), which matters when a
signed size field makes the declared length negative. -/
def decode_tcp_message (data : List Nat) : Except FormatError TcpMessage :=
  if data.length < TCP_HEADER_SIZE then .error .headerTooShort
  else
    let room_name_size := data.getD 0 0
    let operation := data.getD 1 0
    let state := data.getD 2 0
    let sizeField := (data.drop 3).take 29
    match (if utf8Valid sizeField then pyIntParse sizeField else none) with
    | none => .error .invalidSizeField
    | some n =>
      if (data.length : Int) < TCP_HEADER_SIZE + room_name_size + n then
        .error .bodyTooShort
      else
        let body := data.drop TCP_HEADER_SIZE
        let room_name_bytes := body.take room_name_size
        let op_payload := pySliceNatStart body room_name_size (room_name_size + n)
        if utf8Valid room_name_bytes then
          .ok ⟨room_name_bytes, operation, state, op_payload⟩
        else .error .unicodeError

/-- `protocol.encode_udp_message`. -/
def encode_udp_message (room_name token message : List Nat) :
    Except EncodeError (List Nat) :=
  if room_name.length > UDP_FIELD_MAX then .error .validationError
  else if token.length > UDP_FIELD_MAX then .error .validationError
  else do
    let rns ← toBytes1 room_name.length
    let tks ← toBytes1 token.length
    .ok ([rns, tks] ++ room_name ++ token ++ message)

/-- `protocol.decode_udp_message`. -/
def decode_udp_message (data : List Nat) : Except FormatError UdpMessage :=
  if data.length < UDP_HEADER_SIZE then .error .headerTooShort
  else
    let room_name_size := data.getD 0 0
    let token_size := data.getD 1 0
    if data.length < UDP_HEADER_SIZE + room_name_size + token_size then
      .error .bodyTooShort
    else
      let room_name_bytes := (data.drop UDP_HEADER_SIZE).take room_name_size
      let token_bytes := (data.drop (UDP_HEADER_SIZE + room_name_size)).take token_size
      let message_bytes := data.drop (UDP_HEADER_SIZE + room_name_size + token_size)
      if utf8Valid room_name_bytes then
        if utf8Valid token_bytes then
          if utf8Valid message_bytes then
            .ok ⟨room_name_bytes, token_bytes, message_bytes⟩
          else .error .unicodeError
        else .error .unicodeError
      else .error .unicodeError

/-! ## Room registry (`ChatRoomManager` in `server.py`) -/

/-- Python-dict lookup on an association list. -/
def lookupA {α β : Type} [DecidableEq α] (k : α) : List (α × β) → Option β
  | [] => none
  | (k2, v) :: rest => if k2 = k then some v else lookupA k rest

/-- Python-dict insert/overwrite on an association list: an existing key is
updated in place (order preserved), a new key is appended. -/
def insertA {α β : Type} [DecidableEq α] (k : α) (v : β) :
    List (α × β) → List (α × β)
  | [] => [(k, v)]
  | (k2, v2) :: rest =>
    if k2 = k then (k, v) :: rest else (k2, v2) :: insertA k v rest

/-- Python `del d[k]` (on a present key) / no-op on an absent one. -/
def eraseA {α β : Type} [DecidableEq α] (k : α) :
    List (α × β) → List (α × β)
  | [] => []
  | (k2, v2) :: rest =>
    if k2 = k then rest else (k2, v2) :: eraseA k rest

/-- The host record of a room: IP, username, issued token and the UDP port
registered in the create request. -/
structure HostInfo where
  ip : String
  username : List Nat
  token : List Nat
  port : Int
deriving DecidableEq, Repr

/-- A participant record: username and issued token (no port is stored —
`join_chat_room` never records one). -/
structure PartInfo where
  user_name : List Nat
  token : List Nat
deriving DecidableEq, Repr

/-- One chat room: the host record plus the participants dict keyed by the
participant's IP address. -/
structure Room where
  host : HostInfo
  participants : List (String × PartInfo)
deriving DecidableEq, Repr

/-- The `chat_rooms` dict: room name (UTF-8 bytes) to room. -/
abbrev Registry : Type := List (List Nat × Room)

/-- `ChatRoomManager.create_chat_room`, run without interleaving (the
sequential behaviour; the lock-scope race is modelled separately by
`createStep`/`runTwoCreates`).  The freshly generated `uuid4` token is an
explicit argument `tok`. -/
def create_chat_room (st : Registry) (room_name : List Nat) (host_ip : String)
    (host_username : List Nat) (host_udp_port : Int) (tok : List Nat) :
    Option (List Nat) × Registry :=
  match lookupA room_name st with
  | some _ => (none, st)
  | none =>
    (some tok, insertA room_name ⟨⟨host_ip, host_username, tok, host_udp_port⟩, []⟩ st)

/-- `ChatRoomManager.join_chat_room` (the whole body runs under the lock).
The fresh token is the explicit argument `tok`. -/
def join_chat_room (st : Registry) (room_name : List Nat)
    (participant_ip : String) (participant_username : List Nat)
    (tok : List Nat) : Option (List Nat) × Registry :=
  match lookupA room_name st with
  | none => (none, st)
  | some room =>
    (some tok,
     insertA room_name
       { room with
         participants := insertA participant_ip ⟨participant_username, tok⟩ room.participants }
       st)

/-- `ChatRoomManager.get_chat_room`. -/
def get_chat_room (st : Registry) (room_name : List Nat) : Option Room :=
  lookupA room_name st

/-- `ChatRoomManager.remove_chat_room`. -/
def remove_chat_room (st : Registry) (room_name : List Nat) : Registry :=
  eraseA room_name st

/-! ## Relay-plane handler (`handle_udp_message`) -/

/-- The sender-validation logic of `handle_udp_message`: the sender is
authorized iff its full address and token match the host record, or the
participants dict holds a record keyed by the sender's IP whose token
matches.  (Participant records store no port, so their address match is by
IP; the host is matched on IP and registered port.) -/
def validSender (room : Room) (addr : String × Int) (token : List Nat) : Bool :=
  if room.host.ip = addr.1 ∧ room.host.port = addr.2 ∧ room.host.token = token then
    true
  else
    match lookupA addr.1 room.participants with
    | some p => decide (p.token = token)
    | none => false

/-- The relay destinations computed by `handle_udp_message`: the host at its
registered `(ip, port)` if that is not the sender's address, then every
participant at `(participant_ip, UDP_SERVER_PORT)` — the server's own fixed
UDP port, not any address registered by the participant — skipping exact
matches of the sender's address. -/
def broadcastTargets (room : Room) (addr : String × Int) : List (String × Int) :=
  (if (room.host.ip, room.host.port) ≠ addr then [(room.host.ip, room.host.port)] else [])
    ++ (room.participants.map (fun p => (p.1, UDP_SERVER_PORT))).filter
        (fun t => t ≠ addr)

/-- Attempted sends when each `sendto` may raise: recipients are attempted
in order, and the whole loop is inside one `try`, so the first failing send
aborts the remaining ones (the failing recipient itself was attempted). -/
def attemptsUpTo {α : Type} (fails : α → Bool) : List α → List α
  | [] => []
  | t :: rest => if fails t then [t] else t :: attemptsUpTo fails rest

/-- `handle_udp_message` with a send-failure oracle `fails`: returns the
list of `(destination, payload)` datagrams whose `sendto` was attempted.
Decode failures, unknown rooms and invalid tokens all fall into the
handler's catch-and-log paths and produce no sends at all. -/
def handle_udp_messageF (fails : (String × Int) → Bool) (st : Registry)
    (data : List Nat) (addr : String × Int) :
    List ((String × Int) × List Nat) :=
  match decode_udp_message data with
  | .error _ => []
  | .ok m =>
    match get_chat_room st m.room_name with
    | none => []
    | some room =>
      if validSender room addr m.token then
        (attemptsUpTo fails (broadcastTargets room addr)).map
          (fun t => (t, m.message))
      else []

/-- `handle_udp_message` in the failure-free case (every `sendto` succeeds):
the list of relayed datagrams. -/
def handle_udp_message (st : Registry) (data : List Nat)
    (addr : String × Int) : List ((String × Int) × List Nat) :=
  handle_udp_messageF (fun _ => false) st data addr

/-! ## Control-plane handler (`handle_tcp_connection`) -/

/-- Python `str.split(sep)` for a one-byte separator, on UTF-8 bytes (a
multi-byte UTF-8 character never contains the ASCII byte `","`, so the
byte-level split agrees with the string-level one). -/
def splitOnByte (sep : Nat) : List Nat → List (List Nat)
  | [] => [[]]
  | b :: rest =>
    let r := splitOnByte sep rest
    if b = sep then [] :: r
    else
      match r with
      | h :: t => (b :: h) :: t
      | [] => [[b]]

/-- The `host_udp_port` extraction of `handle_tcp_connection`: split the
decoded payload on `","`; if there is a second part, `int()` it, with a
parse failure giving `None`. -/
def parsedPort (op_payload : List Nat) : Option Int :=
  let parts := splitOnByte 44 op_payload
  if parts.length > 1 then pyIntParse ((parts.get? 1).getD []) else none

/-- `handle_tcp_connection` for one decoded request.  Returns the response
frame fields `(room_name, operation, state, payload)` — `none` when the
handler's exception path is taken and no response is sent — together with
the registry after the dispatch.  `tok` is the `uuid4` token that
`create_chat_room`/`join_chat_room` would mint.  Note the handler calls
`op_payload.decode("utf-8")` before dispatching: a payload that is not
valid UTF-8 raises inside the `try` block and the connection closes with no
response even though the frame itself decoded. -/
def handle_tcp_connection (st : Registry) (data : List Nat) (ip : String)
    (tok : List Nat) : Option (List Nat × Nat × Nat × List Nat) × Registry :=
  match decode_tcp_message data with
  | .error _ => (none, st)
  | .ok m =>
    if utf8Valid m.op_payload then
      let parts := splitOnByte 44 m.op_payload
      let username := (parts.get? 0).getD []
      if m.operation = 1 then
        match parsedPort m.op_payload with
        | none =>
          (some (m.room_name, m.operation, 2, strBytes "ERROR: UDP port not provided"), st)
        | some p =>
          match create_chat_room st m.room_name ip username p tok with
          | (none, st2) =>
            (some (m.room_name, m.operation, 2,
                   strBytes "ERROR: chat room is already exist. \x7broom_name\x7d"), st2)
          | (some t, st2) => (some (m.room_name, m.operation, 2, t), st2)
      else if m.operation = 2 then
        match join_chat_room st m.room_name ip username tok with
        | (none, st2) =>
          (some (m.room_name, m.operation, 2,
                 strBytes "ERROR: chat room not found. \x7broom_name\x7d"), st2)
        | (some t, st2) => (some (m.room_name, m.operation, 2, t), st2)
      else
        (some (m.room_name, m.operation, 2, strBytes "ERROR: unknown operation"), st)
    else (none, st)

/-! ## Registry operation sequences (for reachable-state invariants) -/

/-- One registry mutation, as issued by the control-plane flows. -/
inductive RegOp where
  | create (name : List Nat) (ip : String) (username : List Nat)
           (port : Int) (token : List Nat)
  | join (name : List Nat) (ip : String) (username : List Nat) (token : List Nat)
  | remove (name : List Nat)
deriving DecidableEq

/-- Apply one registry operation (sequentially, i.e. under the intended
lock discipline). -/
def applyOp (st : Registry) : RegOp → Registry
  | .create n ip u p t => (create_chat_room st n ip u p t).2
  | .join n ip u t => (join_chat_room st n ip u t).2
  | .remove n => remove_chat_room st n

/-- Apply a sequence of registry operations in order. -/
def applyOps : List RegOp → Registry → Registry
  | [], st => st
  | op :: rest, st => applyOps rest (applyOp st op)

/-- The participant half of the room/host invariant: no room stored in the
registry has a participants entry keyed by that room's own host IP. -/
def NoHostParticipant (st : Registry) : Prop :=
  ∀ p ∈ st, lookupA p.2.host.ip p.2.participants = none

/-! ## The `create_chat_room` lock-scope race -/

/-- Program counter of one in-flight `create_chat_room` call, split at the
source's lock boundary: the `with self.lock:` block covers only the
existence check; the token generation and the dict insertion run after the
lock is released. -/
inductive CreatePC where
  | start
  | passedCheck
  | done (result : Option (List Nat))
deriving DecidableEq, Repr

/-- The parameters of one `create_chat_room` call (token pre-chosen,
standing for the `uuid4` value that call would mint). -/
structure CreateCall where
  name : List Nat
  ip : String
  username : List Nat
  port : Int
  token : List Nat

/-- One atomic step of an in-flight `create_chat_room` call:
`start → done none` (room exists) or `start → passedCheck` under the lock,
then `passedCheck → done (some token)` inserting the room outside the lock. -/
def createStep (st : Registry) (c : CreateCall) : CreatePC → Registry × CreatePC
  | .start =>
    match lookupA c.name st with
    | some _ => (st, .done none)
    | none => (st, .passedCheck)
  | .passedCheck =>
    (insertA c.name ⟨⟨c.ip, c.username, c.token, c.port⟩, []⟩ st,
     .done (some c.token))
  | .done r => (st, .done r)

/-- Interleave two `create_chat_room` calls under a schedule: `true` steps
the first call, `false` the second. -/
def runTwoCreates (c1 c2 : CreateCall) :
    List Bool → Registry × CreatePC × CreatePC → Registry × CreatePC × CreatePC
  | [], s => s
  | b :: rest, (st, p1, p2) =>
    if b then
      let s1 := createStep st c1 p1
      runTwoCreates c1 c2 rest (s1.1, s1.2, p2)
    else
      let s2 := createStep st c2 p2
      runTwoCreates c1 c2 rest (s2.1, p1, s2.2)

deriving instance DecidableEq for Except

/-- Whether an `Except` computation succeeded (the Python call returned
rather than raised). -/
def isOkE {ε α : Type} : Except ε α → Bool
  | .ok _ => true
  | .error _ => false

/-- A sample room used by concrete instances: host `1.1.1.1` (username
`"h"`, token `"t"`, registered UDP port 5000) and one participant at IP
`2.2.2.2` (username `"b"`, token `"u"`). -/
def sampleRoom : Room :=
  ⟨⟨"1.1.1.1", [104], [116], 5000⟩, [("2.2.2.2", ⟨[98], [117]⟩)]⟩

/-- A registry holding `sampleRoom` under the name `"r"`. -/
def sampleRegistry : Registry := [([114], sampleRoom)]

/-- `sampleRoom` with a second participant at IP `3.3.3.3` (username `"c"`,
token `"v"`). -/
def sampleRoom2 : Room :=
  ⟨⟨"1.1.1.1", [104], [116], 5000⟩,
   [("2.2.2.2", ⟨[98], [117]⟩), ("3.3.3.3", ⟨[99], [118]⟩)]⟩

/-- A registry holding `sampleRoom2` under the name `"r"`. -/
def sampleRegistry2 : Registry := [([114], sampleRoom2)]

/-- The relay datagram `encode_udp_message "r" "t" "hi"`:
room `"r"`, the host token, message `"hi"`. -/
def sampleDatagram : List Nat := [1, 1, 114, 116, 104, 105]

/-! ## Basic lemmas about the byte-level helpers -/

theorem utf8Aux_none_cons_lt (b : Nat) (rest : List Nat) (hb : b < 128) :
    utf8Aux none (b :: rest) = utf8Aux none rest := by
  rw [utf8Aux, if_pos hb]

theorem utf8Valid_of_ascii (l : List Nat) (h : ∀ b ∈ l, b < 128) :
    utf8Valid l = true := by
  induction l with
  | nil => rfl
  | cons b rest ih =>
    rw [utf8Valid, utf8Aux_none_cons_lt b rest (h b (List.mem_cons_self b rest))]
    exact ih (fun x hx => h x (List.mem_cons_of_mem b hx))

theorem decField_length (w n : Nat) : (decField w n).length = w := by
  simp [decField]

theorem mem_decField {w n b : Nat} (hb : b ∈ decField w n) : 48 ≤ b ∧ b ≤ 57 := by
  simp only [decField, List.mem_map, List.mem_reverse, List.mem_range] at hb
  obtain ⟨i, _, rfl⟩ := hb
  have : n / 10 ^ i % 10 < 10 := Nat.mod_lt _ (by norm_num)
  omega

theorem decField_succ (w n : Nat) :
    decField (w + 1) n = (n / 10 ^ w % 10 + 48) :: decField w (n % 10 ^ w) := by
  have hrev : (List.range (w + 1)).reverse = w :: (List.range w).reverse := by
    rw [List.range_succ, List.reverse_append]; rfl
  rw [decField, hrev, List.map_cons]
  congr 1
  rw [decField]
  apply List.map_congr_left
  intro i hi
  have hi2 : i < w := List.mem_range.mp (List.mem_reverse.mp hi)
  congr 1
  have hsplit : (10 : Nat) ^ w = 10 ^ i * 10 ^ (w - i) := by
    rw [← pow_add, Nat.add_sub_cancel' (Nat.le_of_lt hi2)]
  have hdvd : (10 : Nat) ∣ 10 ^ (w - i) :=
    dvd_pow_self 10 (Nat.sub_ne_zero_of_lt hi2)
  rw [hsplit, Nat.mod_mul_right_div_self, Nat.mod_mod_of_dvd _ hdvd]

theorem parseDigitsCore_decField (w : Nat) :
    ∀ a n : Nat, n < 10 ^ w →
      parseDigitsCore a false (decField w n) = some (a * 10 ^ w + n) := by
  induction w with
  | zero =>
    intro a n hn
    have : n = 0 := Nat.lt_one_iff.mp hn
    subst this
    simp [decField, parseDigitsCore]
  | succ w ih =>
    intro a n hn
    rw [decField_succ]
    have hdig : isDigitByte (n / 10 ^ w % 10 + 48) = true := by
      have : n / 10 ^ w % 10 < 10 := Nat.mod_lt _ (by norm_num)
      simp [isDigitByte]; omega
    rw [parseDigitsCore, if_pos hdig]
    have hmod : n % 10 ^ w < 10 ^ w := Nat.mod_lt _ (by positivity)
    rw [ih (10 * a + (n / 10 ^ w % 10 + 48 - 48)) (n % 10 ^ w) hmod]
    congr 1
    have hsub : n / 10 ^ w % 10 + 48 - 48 = n / 10 ^ w % 10 := by omega
    have hdivlt : n / 10 ^ w < 10 := by
      apply Nat.div_lt_of_lt_mul
      rw [← pow_succ]
      exact hn
    have hmodeq : n / 10 ^ w % 10 = n / 10 ^ w := Nat.mod_eq_of_lt hdivlt
    have key : 10 ^ w * (n / 10 ^ w) + n % 10 ^ w = n := Nat.div_add_mod n (10 ^ w)
    rw [hsub, hmodeq]
    have expand : (10 * a + n / 10 ^ w) * 10 ^ w + n % 10 ^ w
        = a * (10 ^ w * 10) + (10 ^ w * (n / 10 ^ w) + n % 10 ^ w) := by ring
    rw [expand, key, ← pow_succ]

theorem parseDigits_decField (w n : Nat) (hw : w ≠ 0) (hn : n < 10 ^ w) :
    parseDigits (decField w n) = some n := by
  cases w with
  | zero => exact absurd rfl hw
  | succ w =>
    rw [decField_succ]
    have hdig : isDigitByte (n / 10 ^ w % 10 + 48) = true := by
      have : n / 10 ^ w % 10 < 10 := Nat.mod_lt _ (by norm_num)
      simp [isDigitByte]; omega
    rw [parseDigits, if_pos hdig, ← decField_succ]
    rw [parseDigitsCore_decField (w + 1) 0 n hn]
    simp

theorem dropWhile_eq_self_of_noSpace (l : List Nat)
    (h : ∀ b ∈ l, isSpaceByte b = false) :
    l.dropWhile isSpaceByte = l := by
  cases l with
  | nil => rfl
  | cons a rest =>
    rw [List.dropWhile_cons, h a (List.mem_cons_self a rest)]
    simp

theorem stripSpaces_of_noSpace (l : List Nat)
    (h : ∀ b ∈ l, isSpaceByte b = false) : stripSpaces l = l := by
  unfold stripSpaces
  rw [dropWhile_eq_self_of_noSpace l h,
      dropWhile_eq_self_of_noSpace l.reverse
        (fun b hb => h b (List.mem_reverse.mp hb)),
      List.reverse_reverse]

theorem pyIntParse_decField (n : Nat) (hn : n < 10 ^ 29) :
    pyIntParse (decField 29 n) = some (n : Int) := by
  have hnos : ∀ b ∈ decField 29 n, isSpaceByte b = false := by
    intro b hb
    have := mem_decField hb
    simp [isSpaceByte]; omega
  rw [pyIntParse, stripSpaces_of_noSpace _ hnos]
  rw [show (29 : Nat) = 28 + 1 from rfl, decField_succ]
  have hd : 48 ≤ n / 10 ^ 28 % 10 + 48 := Nat.le_add_left _ _
  rw [pyIntParseSigned, if_neg (by omega), if_neg (by omega), ← decField_succ]
  rw [show (28 + 1 : Nat) = 29 from rfl, parseDigits_decField 29 n (by norm_num) hn]
  rfl

/-! ## Association-list lemmas -/

theorem lookupA_insertA_self {α β : Type} [DecidableEq α] (k : α) (v : β)
    (l : List (α × β)) : lookupA k (insertA k v l) = some v := by
  induction l with
  | nil => simp [insertA, lookupA]
  | cons p rest ih =>
    obtain ⟨k2, v2⟩ := p
    by_cases h : k2 = k
    · simp [insertA, h, lookupA]
    · simp [insertA, h, lookupA, ih]

theorem lookupA_insertA_ne {α β : Type} [DecidableEq α] {k k2 : α} (v : β)
    (l : List (α × β)) (h : k2 ≠ k) :
    lookupA k2 (insertA k v l) = lookupA k2 l := by
  induction l with
  | nil => simp [insertA, lookupA, Ne.symm h]
  | cons p rest ih =>
    obtain ⟨a, b⟩ := p
    by_cases ha : a = k
    · subst ha
      simp [insertA, lookupA, Ne.symm h]
    · simp only [insertA, if_neg ha, lookupA]
      by_cases hb : a = k2
      · simp [hb]
      · simp [hb, ih]

theorem lookupA_eq_none_of_not_mem_keys {α β : Type} [DecidableEq α] {k : α}
    {l : List (α × β)} (h : k ∉ l.map Prod.fst) : lookupA k l = none := by
  induction l with
  | nil => rfl
  | cons p rest ih =>
    obtain ⟨a, b⟩ := p
    simp only [List.map_cons, List.mem_cons] at h
    push_neg at h
    simp [lookupA, Ne.symm h.1, ih h.2]

theorem lookupA_eraseA_ne {α β : Type} [DecidableEq α] {k k2 : α}
    (l : List (α × β)) (h : k2 ≠ k) :
    lookupA k2 (eraseA k l) = lookupA k2 l := by
  induction l with
  | nil => rfl
  | cons p rest ih =>
    obtain ⟨a, b⟩ := p
    by_cases ha : a = k
    · subst ha
      simp [eraseA, lookupA, Ne.symm h]
    · simp only [eraseA, if_neg ha, lookupA]
      by_cases hb : a = k2
      · simp [hb]
      · simp [hb, ih]

theorem lookupA_eraseA_self {α β : Type} [DecidableEq α] {k : α}
    {l : List (α × β)} (h : (l.map Prod.fst).Nodup) :
    lookupA k (eraseA k l) = none := by
  induction l with
  | nil => rfl
  | cons p rest ih =>
    obtain ⟨a, b⟩ := p
    simp only [List.map_cons, List.nodup_cons] at h
    by_cases ha : a = k
    · subst ha
      rw [eraseA, if_pos rfl]
      exact lookupA_eq_none_of_not_mem_keys h.1
    · rw [eraseA, if_neg ha, lookupA, if_neg ha]
      exact ih h.2

/-! ## Broadcast / attempted-send lemmas -/

theorem attemptsUpTo_const_false {α : Type} (l : List α) :
    attemptsUpTo (fun _ => false) l = l := by
  induction l with
  | nil => rfl
  | cons t rest ih => simp [attemptsUpTo, ih]

theorem attemptsUpTo_eq_takeWhile {α : Type} (fails : α → Bool) (l : List α) :
    attemptsUpTo fails l =
      l.takeWhile (fun t => !fails t)
        ++ (l.drop (l.takeWhile (fun t => !fails t)).length).take 1 := by
  induction l with
  | nil => rfl
  | cons t rest ih =>
    cases hfe : fails t with
    | true => simp [attemptsUpTo, hfe, List.takeWhile_cons]
    | false =>
      simp [attemptsUpTo, hfe, List.takeWhile_cons, List.drop_succ_cons, ih]

theorem mem_attemptsUpTo {α : Type} {fails : α → Bool} {l : List α} {x : α}
    (h : x ∈ attemptsUpTo fails l) : x ∈ l := by
  induction l with
  | nil => exact absurd h (by simp [attemptsUpTo])
  | cons t rest ih =>
    by_cases hf : fails t
    · simp only [attemptsUpTo, if_pos hf, List.mem_singleton] at h
      simp [h]
    · simp only [attemptsUpTo, if_neg hf, List.mem_cons] at h
      rcases h with h | h
      · simp [h]
      · exact List.mem_cons_of_mem _ (ih h)

theorem mem_broadcastTargets_ne_addr {room : Room} {addr : String × Int}
    {t : String × Int} (h : t ∈ broadcastTargets room addr) : t ≠ addr := by
  simp only [broadcastTargets, List.mem_append] at h
  rcases h with h | h
  · by_cases hh : (room.host.ip, room.host.port) ≠ addr
    · rw [if_pos hh] at h
      simp only [List.mem_singleton] at h
      subst h
      exact hh
    · rw [if_neg hh] at h
      exact absurd h (List.not_mem_nil t)
  · exact of_decide_eq_true ((List.mem_filter.mp h).2)

/-! ## Further association-list and Except lemmas -/

theorem mem_insertA {α β : Type} [DecidableEq α] {k : α} {v : β}
    {l : List (α × β)} {x : α × β} (h : x ∈ insertA k v l) :
    x = (k, v) ∨ x ∈ l := by
  induction l with
  | nil =>
    simp only [insertA, List.mem_singleton] at h
    exact Or.inl h
  | cons p rest ih =>
    obtain ⟨a, b⟩ := p
    by_cases ha : a = k
    · rw [insertA, if_pos ha] at h
      rcases List.mem_cons.mp h with h | h
      · exact Or.inl h
      · exact Or.inr (List.mem_cons_of_mem _ h)
    · rw [insertA, if_neg ha] at h
      rcases List.mem_cons.mp h with h | h
      · exact Or.inr (h ▸ List.mem_cons_self _ _)
      · rcases ih h with h | h
        · exact Or.inl h
        · exact Or.inr (List.mem_cons_of_mem _ h)

theorem lookupA_mem {α β : Type} [DecidableEq α] {k : α} {v : β}
    {l : List (α × β)} (h : lookupA k l = some v) : (k, v) ∈ l := by
  induction l with
  | nil => exact absurd h (by simp [lookupA])
  | cons p rest ih =>
    obtain ⟨a, b⟩ := p
    by_cases ha : a = k
    · rw [lookupA, if_pos ha] at h
      cases Option.some.inj h
      exact ha ▸ List.mem_cons_self _ _
    · rw [lookupA, if_neg ha] at h
      exact List.mem_cons_of_mem _ (ih h)

theorem mem_eraseA {α β : Type} [DecidableEq α] {k : α}
    {l : List (α × β)} {x : α × β} (h : x ∈ eraseA k l) : x ∈ l := by
  induction l with
  | nil => exact absurd h (List.not_mem_nil x)
  | cons p rest ih =>
    obtain ⟨a, b⟩ := p
    by_cases ha : a = k
    · rw [eraseA, if_pos ha] at h
      exact List.mem_cons_of_mem _ h
    · rw [eraseA, if_neg ha] at h
      rcases List.mem_cons.mp h with h | h
      · exact h ▸ List.mem_cons_self _ _
      · exact List.mem_cons_of_mem _ (ih h)

theorem error_of_not_isOkE {ε α : Type} {x : Except ε α}
    (h : isOkE x = false) : ∃ e, x = .error e := by
  cases x with
  | ok v => exact absurd h (by simp [isOkE])
  | error e => exact ⟨e, rfl⟩

/-! ## Codec round-trip helper theorems -/

theorem tcp_codec_roundtrip (r : List Nat) (op st : Nat) (p : List Nat)
    (hr : r.length ≤ 255) (hu : utf8Valid r = true)
    (hop : op ≤ 255) (hst : st ≤ 255) (hp : p.length ≤ 2 ^ 29 - 1) :
    ∃ d, encode_tcp_message r op st p = .ok d ∧
      decode_tcp_message d = .ok ⟨r, op, st, p⟩ := by
  refine ⟨r.length :: op :: st :: (decField 29 p.length ++ (r ++ p)), ?_, ?_⟩
  · unfold encode_tcp_message toBytes1
    rw [if_neg (by simp only [TCP_ROOMNAME_SIZE]; omega),
        if_neg (by simp only [TCP_PAYLOAD_MAX]; omega)]
    simp only [TCP_PAYLOAD_FIELD_WIDTH]
    rw [if_pos (by omega), if_pos (by omega), if_pos (by omega)]
    rfl
  · have hlen : (r.length :: op :: st :: (decField 29 p.length ++ (r ++ p))).length
        = 32 + r.length + p.length := by
      simp [decField_length]
      omega
    have hulen : p.length < 10 ^ 29 := by
      have : (2 : Nat) ^ 29 - 1 < 10 ^ 29 := by norm_num
      omega
    have husf : utf8Valid (decField 29 p.length) = true := by
      apply utf8Valid_of_ascii
      intro b hb
      have := mem_decField hb
      omega
    have hsf : ((r.length :: op :: st :: (decField 29 p.length ++ (r ++ p))).drop 3).take 29
        = decField 29 p.length := by
      show ((decField 29 p.length ++ (r ++ p)).take 29) = decField 29 p.length
      exact List.take_left' (decField_length 29 p.length)
    have hbody : (r.length :: op :: st :: (decField 29 p.length ++ (r ++ p))).drop 32
        = r ++ p := by
      show ((decField 29 p.length ++ (r ++ p)).drop 29) = r ++ p
      exact List.drop_left' (decField_length 29 p.length)
    have hif : (if utf8Valid ((( r.length :: op :: st :: (decField 29 p.length ++ (r ++ p))).drop 3).take 29) = true
          then pyIntParse (((r.length :: op :: st :: (decField 29 p.length ++ (r ++ p))).drop 3).take 29)
          else none) = some (p.length : Int) := by
      rw [hsf, if_pos husf, pyIntParse_decField p.length hulen]
    simp only [decode_tcp_message, TCP_HEADER_SIZE]
    rw [if_neg (by rw [hlen]; omega)]
    rw [hif]
    have hslice : pySliceNatStart (r ++ p) r.length ((r.length : Int) + (p.length : Int)) = p := by
      simp only [pySliceNatStart]
      rw [if_neg (by omega)]
      have htn : ((r.length : Int) + (p.length : Int)).toNat = r.length + p.length := by omega
      rw [htn, List.length_append, min_self, ← List.length_append r p,
          List.take_length, List.drop_left]
    split
    · next heq => exact absurd heq (by simp)
    · next n heq =>
      cases Option.some.inj heq
      have hg0 : (r.length :: op :: st :: (decField 29 p.length ++ (r ++ p))).getD 0 0 = r.length := rfl
      have hg1 : (r.length :: op :: st :: (decField 29 p.length ++ (r ++ p))).getD 1 0 = op := rfl
      have hg2 : (r.length :: op :: st :: (decField 29 p.length ++ (r ++ p))).getD 2 0 = st := rfl
      rw [hg0, hg1, hg2, hlen, hbody]
      rw [if_neg (by push_cast; omega)]
      rw [List.take_left, if_pos hu, hslice]


theorem udp_codec_roundtrip (r t msg : List Nat)
    (hr : r.length ≤ 255) (ht : t.length ≤ 255)
    (hur : utf8Valid r = true) (hut : utf8Valid t = true)
    (hum : utf8Valid msg = true) :
    ∃ d, encode_udp_message r t msg = .ok d ∧
      decode_udp_message d = .ok ⟨r, t, msg⟩ := by
  refine ⟨[r.length, t.length] ++ r ++ t ++ msg, ?_, ?_⟩
  · unfold encode_udp_message toBytes1
    rw [if_neg (by simp only [UDP_FIELD_MAX]; omega),
        if_neg (by simp only [UDP_FIELD_MAX]; omega)]
    rw [if_pos (by omega), if_pos (by omega)]
    rfl
  · have hlen : ([r.length, t.length] ++ r ++ t ++ msg).length
        = 2 + r.length + t.length + msg.length := by
      simp
      omega
    have hg0 : ([r.length, t.length] ++ r ++ t ++ msg).getD 0 0 = r.length := rfl
    have hg1 : ([r.length, t.length] ++ r ++ t ++ msg).getD 1 0 = t.length := rfl
    have hdrop2 : ([r.length, t.length] ++ r ++ t ++ msg).drop 2 = r ++ (t ++ msg) := by
      rw [show ([r.length, t.length] ++ r ++ t ++ msg).drop 2 = r ++ t ++ msg from rfl,
          List.append_assoc]
    have hdropR : ([r.length, t.length] ++ r ++ t ++ msg).drop (2 + r.length)
        = t ++ msg := by
      rw [← List.drop_drop, hdrop2, List.drop_left]
    have hdropRT : ([r.length, t.length] ++ r ++ t ++ msg).drop (2 + r.length + t.length)
        = msg := by
      rw [← List.drop_drop, hdropR, List.drop_left]
    simp only [decode_udp_message, UDP_HEADER_SIZE]
    rw [hg0, hg1, hlen, hdrop2, hdropR, hdropRT]
    rw [if_neg (by omega), if_neg (by omega)]
    rw [List.take_left, List.take_left]
    rw [if_pos hur, if_pos hut, if_pos hum]

/-! ## Claim theorems -/

/-- C1: Relay authorization.  For every inbound relay datagram that decodes
and names an existing room, the relay proceeds — broadcasting to the
computed targets — if and only if `validSender` holds: the sender's full
address and token match the host record, or the participants dict holds a
record keyed by the sender's IP whose token matches.  On any mismatch the
handler produces no sends at all (in particular nothing is sent back to the
sender: no error frame or reply of any kind). -/
theorem C1_relay_authorization (st : Registry) (data : List Nat)
    (addr : String × Int) (m : UdpMessage) (room : Room)
    (hd : decode_udp_message data = .ok m)
    (hl : get_chat_room st m.room_name = some room) :
    handle_udp_message st data addr =
      (if validSender room addr m.token then
        (broadcastTargets room addr).map (fun t => (t, m.message))
      else []) ∧
    (validSender room addr m.token = false →
      handle_udp_message st data addr = []) := by
  have hmain : handle_udp_message st data addr =
      (if validSender room addr m.token then
        (broadcastTargets room addr).map (fun t => (t, m.message))
      else []) := by
    simp only [handle_udp_message, handle_udp_messageF, hd, hl]
    by_cases hv : validSender room addr m.token
    · rw [if_pos hv, if_pos hv, attemptsUpTo_const_false]
    · rw [if_neg hv, if_neg hv]
  refine ⟨hmain, fun hv => ?_⟩
  rw [hmain, hv]
  simp

/-- Witness for C1 at a concrete registry and datagram: the host of room
`"r"` sends `"hi"` with its valid token from its registered address. -/
theorem C1_relay_authorization_witness :
    handle_udp_message sampleRegistry sampleDatagram ("1.1.1.1", 5000) =
      (if validSender sampleRoom ("1.1.1.1", 5000) [116] then
        (broadcastTargets sampleRoom ("1.1.1.1", 5000)).map
          (fun t => (t, [104, 105]))
      else []) ∧
    (validSender sampleRoom ("1.1.1.1", 5000) [116] = false →
      handle_udp_message sampleRegistry sampleDatagram ("1.1.1.1", 5000) = []) :=
  C1_relay_authorization sampleRegistry sampleDatagram ("1.1.1.1", 5000)
    ⟨[114], [116], [104, 105]⟩ sampleRoom (by decide) (by decide)

/-- C2: what the broadcast actually does at a concrete room.  First
conjunct: a valid message from the host of `"r"` (which holds one
participant at IP `2.2.2.2`, which registered no port) is delivered to
`("2.2.2.2", UDP_SERVER_PORT)` — the server's own fixed UDP port 9001, not
any address the participant registered at join time (`join_chat_room`
stores no port at all).  Second conjunct: a valid message from that
participant (sending from ephemeral port 40000) is delivered to the host's
registered address and to `("2.2.2.2", 9001)` — the sender's own IP at the
fixed port.  This refutes the claim that each member is addressed at its
own join-time relay endpoint. -/
theorem C2_fixed_port_broadcast :
    handle_udp_message sampleRegistry sampleDatagram ("1.1.1.1", 5000)
      = [(("2.2.2.2", UDP_SERVER_PORT), [104, 105])] ∧
    handle_udp_message sampleRegistry [1, 1, 114, 117, 104, 105] ("2.2.2.2", 40000)
      = [(("1.1.1.1", 5000), [104, 105]),
         (("2.2.2.2", UDP_SERVER_PORT), [104, 105])] := by
  exact ⟨by decide, by decide⟩

/-- C3: the `create_chat_room` lock-scope race.  The `with self.lock:`
block covers only the existence check, and the insertion runs after the
lock is released.  Under the schedule check₁; check₂; insert₁; insert₂,
two concurrent creates of room `"r"` BOTH return tokens (two winners), and
the final registry holds the second caller's record as host — overwriting
the first.  The last two conjuncts show the intended sequential behaviour
for contrast: run atomically one after the other, the second call reports
failure (`none`). -/
theorem C3_create_race :
    runTwoCreates ⟨[114], "1.1.1.1", [97], 5000, [65]⟩
        ⟨[114], "2.2.2.2", [98], 6000, [66]⟩
        [true, false, true, false] ([], .start, .start)
      = ([([114], ⟨⟨"2.2.2.2", [98], [66], 6000⟩, []⟩)],
         .done (some [65]), .done (some [66])) ∧
    (create_chat_room [] [114] "1.1.1.1" [97] 5000 [65]).1 = some [65] ∧
    (create_chat_room
        (create_chat_room [] [114] "1.1.1.1" [97] 5000 [65]).2
        [114] "2.2.2.2" [98] 6000 [66]).1 = none := by
  exact ⟨by decide, by decide, by decide⟩

/-- C4 counterexample: the reachable state after `create "r"` from host IP
`1.1.1.1` followed by `join "r"` issued from that same IP contains a
participants entry keyed by the host's own address, refuting the claimed
invariant that the participants mapping never holds the host's address. -/
theorem C4_counterexample :
    lookupA [114] (applyOps [RegOp.create [114] "1.1.1.1" [104] 5000 [116],
                             RegOp.join [114] "1.1.1.1" [106] [117]] [])
      = some ⟨⟨"1.1.1.1", [104], [116], 5000⟩, [("1.1.1.1", ⟨[106], [117]⟩)]⟩ ∧
    lookupA "1.1.1.1"
        (Room.participants ⟨⟨"1.1.1.1", [104], [116], 5000⟩,
          [("1.1.1.1", ⟨[106], [117]⟩)]⟩) = some ⟨[106], [117]⟩ := by
  exact ⟨by decide, by decide⟩

/-- C4 amended: (1) the host of an existing room is never changed by any
registry operation (on registries with distinct room names, which every
reachable registry has); (2) the empty registry satisfies the
no-host-participant invariant; (3) a join preserves it provided the join's
IP is not the host IP of the room it targets; (4) every non-join operation
preserves it unconditionally.  Together: a room's host is set at creation
and never reassigned, and `participants` never contains the host's IP
unless a join is issued from the host's own IP (which the code permits —
see the counterexample). -/
theorem C4_host_invariant_amended :
    (∀ (st : Registry) (op : RegOp) (name : List Nat) (r r2 : Room),
        (st.map Prod.fst).Nodup →
        lookupA name st = some r →
        lookupA name (applyOp st op) = some r2 →
        r2.host = r.host) ∧
    NoHostParticipant ([] : Registry) ∧
    (∀ (st : Registry) (name : List Nat) (ip : String) (u t : List Nat),
        NoHostParticipant st →
        (∀ room, lookupA name st = some room → ip ≠ room.host.ip) →
        NoHostParticipant (applyOp st (RegOp.join name ip u t))) ∧
    (∀ (st : Registry) (op : RegOp),
        NoHostParticipant st →
        (∀ (n : List Nat) (i : String) (us tk : List Nat),
          op ≠ RegOp.join n i us tk) →
        NoHostParticipant (applyOp st op)) := by
  refine ⟨?_, ?_, ?_, ?_⟩
  · intro st op name r r2 hnd hl hl2
    cases op with
    | create n ip u p t =>
      cases hcc : lookupA n st with
      | some room0 =>
        simp only [applyOp, create_chat_room, hcc] at hl2
        rw [hl] at hl2
        cases Option.some.inj hl2
        rfl
      | none =>
        simp only [applyOp, create_chat_room, hcc] at hl2
        by_cases hn : name = n
        · subst hn
          rw [hl] at hcc
          exact Option.noConfusion hcc
        · rw [lookupA_insertA_ne _ _ hn, hl] at hl2
          cases Option.some.inj hl2
          rfl
    | join n ip u t =>
      cases hcc : lookupA n st with
      | none =>
        simp only [applyOp, join_chat_room, hcc] at hl2
        rw [hl] at hl2
        cases Option.some.inj hl2
        rfl
      | some room0 =>
        simp only [applyOp, join_chat_room, hcc] at hl2
        by_cases hn : name = n
        · subst hn
          rw [lookupA_insertA_self] at hl2
          cases Option.some.inj hl2
          rw [hl] at hcc
          cases Option.some.inj hcc
          rfl
        · rw [lookupA_insertA_ne _ _ hn, hl] at hl2
          cases Option.some.inj hl2
          rfl
    | remove n =>
      simp only [applyOp, remove_chat_room] at hl2
      by_cases hn : name = n
      · subst hn
        rw [lookupA_eraseA_self hnd] at hl2
        exact Option.noConfusion hl2
      · rw [lookupA_eraseA_ne _ hn, hl] at hl2
        cases Option.some.inj hl2
        rfl
  · intro p hp
    exact absurd hp (List.not_mem_nil p)
  · intro st name ip u t hin hop
    cases hcc : lookupA name st with
    | none =>
      simp only [applyOp, join_chat_room, hcc]
      exact hin
    | some room0 =>
      simp only [applyOp, join_chat_room, hcc, NoHostParticipant]
      intro p hp
      rcases mem_insertA hp with heq | hmem
      · cases heq
        have hne : ip ≠ room0.host.ip := hop room0 hcc
        show lookupA room0.host.ip (insertA ip ⟨u, t⟩ room0.participants) = none
        rw [lookupA_insertA_ne _ _ (Ne.symm hne)]
        exact hin (name, room0) (lookupA_mem hcc)
      · exact hin p hmem
  · intro st op hin hnj
    cases op with
    | join n i us tk => exact absurd rfl (hnj n i us tk)
    | create n ip u pp t =>
      cases hcc : lookupA n st with
      | some room0 =>
        simp only [applyOp, create_chat_room, hcc]
        exact hin
      | none =>
        simp only [applyOp, create_chat_room, hcc, NoHostParticipant]
        intro p hp
        rcases mem_insertA hp with heq | hmem
        · cases heq
          rfl
        · exact hin p hmem
    | remove n =>
      simp only [applyOp, remove_chat_room, NoHostParticipant]
      intro p hp
      exact hin p (mem_eraseA hp)

/-- Witness for C4 amended at concrete inputs: a join of `"r"` from the
fresh IP `9.9.9.9` leaves the host record unchanged and preserves the
no-host-participant invariant, as does removing the room. -/
theorem C4_host_invariant_amended_witness :
    (Room.host ⟨⟨"1.1.1.1", [104], [116], 5000⟩,
        [("2.2.2.2", ⟨[98], [117]⟩), ("9.9.9.9", ⟨[120], [121]⟩)]⟩
      = sampleRoom.host) ∧
    NoHostParticipant ([] : Registry) ∧
    NoHostParticipant (applyOp sampleRegistry (RegOp.join [114] "9.9.9.9" [120] [121])) ∧
    NoHostParticipant (applyOp sampleRegistry (RegOp.remove [114])) :=
  ⟨C4_host_invariant_amended.1 sampleRegistry (RegOp.join [114] "9.9.9.9" [120] [121])
      [114] sampleRoom
      ⟨⟨"1.1.1.1", [104], [116], 5000⟩,
        [("2.2.2.2", ⟨[98], [117]⟩), ("9.9.9.9", ⟨[120], [121]⟩)]⟩
      (by decide) (by decide) (by decide),
   C4_host_invariant_amended.2.1,
   C4_host_invariant_amended.2.2.1 sampleRegistry [114] "9.9.9.9" [120] [121]
      (by unfold NoHostParticipant; decide)
      (by
        intro room h
        rw [show lookupA [114] sampleRegistry = some sampleRoom from rfl] at h
        cases Option.some.inj h
        decide),
   C4_host_invariant_amended.2.2.2 sampleRegistry (RegOp.remove [114])
      (by unfold NoHostParticipant; decide)
      (by intro n i us tk h; exact RegOp.noConfusion h)⟩

/-- C5: codec round-trip.  Control plane: for every room name of at most
255 UTF-8 bytes, single-byte operation and state, and payload of at most
`2 ^ 29 - 1` bytes, decoding the encoded frame returns exactly the original
tuple.  Relay plane: for every room name and token of at most 255 bytes and
any message, all valid UTF-8, decoding the encoded datagram returns exactly
the original tuple. -/
theorem C5_codec_roundtrip :
    (∀ (r : List Nat) (op st : Nat) (p : List Nat),
        r.length ≤ 255 → utf8Valid r = true → op ≤ 255 → st ≤ 255 →
        p.length ≤ 2 ^ 29 - 1 →
        ∃ d, encode_tcp_message r op st p = .ok d ∧
          decode_tcp_message d = .ok ⟨r, op, st, p⟩) ∧
    (∀ r t msg : List Nat,
        r.length ≤ 255 → t.length ≤ 255 →
        utf8Valid r = true → utf8Valid t = true → utf8Valid msg = true →
        ∃ d, encode_udp_message r t msg = .ok d ∧
          decode_udp_message d = .ok ⟨r, t, msg⟩) :=
  ⟨fun r op st p hr hu hop hst hp =>
      tcp_codec_roundtrip r op st p hr hu hop hst hp,
   fun r t msg hr ht hur hut hum =>
      udp_codec_roundtrip r t msg hr ht hur hut hum⟩

/-- Witness for C5: concrete round trips of the create-request frame
`("r", 1, 0, "a,5")` and the relay datagram `("r", "t", "hi")`. -/
theorem C5_codec_roundtrip_witness :
    (∃ d, encode_tcp_message [114] 1 0 [97, 44, 53] = Except.ok d ∧
      decode_tcp_message d = Except.ok ⟨[114], 1, 0, [97, 44, 53]⟩) ∧
    (∃ d, encode_udp_message [114] [116] [104, 105] = Except.ok d ∧
      decode_udp_message d = Except.ok ⟨[114], [116], [104, 105]⟩) :=
  ⟨C5_codec_roundtrip.1 [114] 1 0 [97, 44, 53]
      (by decide) (by decide) (by decide) (by decide) (by norm_num),
   C5_codec_roundtrip.2 [114] [116] [104, 105]
      (by decide) (by decide) (by decide) (by decide) (by decide)⟩

set_option maxRecDepth 8192 in
/-- C6 counterexample: a room name of exactly 256 UTF-8 bytes passes the
encoder's size check (which is `> 2 ** 8`, not `> 255`) and then crashes in
`(256).to_bytes(1, "big")` with an `OverflowError` — not the
`ValidationError` the claim asserts for every name over 255 bytes. -/
theorem C6_counterexample :
    encode_tcp_message (List.replicate 256 97) 1 0 [] =
      Except.error EncodeError.overflowError ∧
    EncodeError.overflowError ≠ EncodeError.validationError ∧
    (List.replicate 256 97).length = 256 := by
  exact ⟨by decide, by decide, by decide⟩

/-- C6 amended: (1) control-plane encode raises `ValidationError` exactly
when the room name exceeds 256 bytes or the payload exceeds `2 ^ 29` bytes
(not 255 / `2 ^ 29 - 1`); (2) relay-plane encode raises `ValidationError`
exactly when the room name or token exceeds 256 bytes; (3) a room name of
at most 255 bytes (with payload in range) encodes successfully; (4) a room
name of exactly 256 bytes fails, but with the `OverflowError` from the
one-byte length conversion rather than `ValidationError`. -/
theorem C6_encode_limits_amended :
    (∀ (room : List Nat) (op st2 : Nat) (payload : List Nat),
        op ≤ 255 → st2 ≤ 255 →
        (encode_tcp_message room op st2 payload = .error .validationError ↔
          room.length > 256 ∨ payload.length > 2 ^ 29)) ∧
    (∀ room token msg : List Nat,
        encode_udp_message room token msg = .error .validationError ↔
          room.length > 256 ∨ token.length > 256) ∧
    (∀ (room : List Nat) (op st2 : Nat) (payload : List Nat),
        op ≤ 255 → st2 ≤ 255 → room.length ≤ 255 → payload.length ≤ 2 ^ 29 →
        isOkE (encode_tcp_message room op st2 payload) = true) ∧
    (∀ (room : List Nat) (op st2 : Nat) (payload : List Nat),
        room.length = 256 → payload.length ≤ 2 ^ 29 →
        encode_tcp_message room op st2 payload = .error .overflowError) := by
  refine ⟨?_, ?_, ?_, ?_⟩
  · intro room op st2 payload hop hst
    simp only [encode_tcp_message, toBytes1, TCP_ROOMNAME_SIZE, TCP_PAYLOAD_MAX,
      TCP_PAYLOAD_FIELD_WIDTH]
    rw [show (2 : Nat) ^ 8 = 256 from by norm_num]
    by_cases hg1 : room.length > 256
    · rw [if_pos hg1]
      exact iff_of_true rfl (Or.inl hg1)
    · rw [if_neg hg1]
      by_cases hg2 : payload.length > 2 ^ 29
      · rw [if_pos hg2]
        exact iff_of_true rfl (Or.inr hg2)
      · rw [if_neg hg2]
        apply iff_of_false
        · rcases Nat.lt_or_ge room.length 256 with h256 | h256
          · rw [if_pos h256, if_pos (by omega), if_pos (by omega)]
            intro hc
            exact Except.noConfusion hc
          · rw [if_neg (by omega)]
            intro hc
            exact EncodeError.noConfusion (Except.error.inj hc)
        · exact fun hc => hc.elim hg1 hg2
  · intro room token msg
    simp only [encode_udp_message, toBytes1, UDP_FIELD_MAX]
    rw [show (2 : Nat) ^ 8 = 256 from by norm_num]
    by_cases hg1 : room.length > 256
    · rw [if_pos hg1]
      exact iff_of_true rfl (Or.inl hg1)
    · rw [if_neg hg1]
      by_cases hg2 : token.length > 256
      · rw [if_pos hg2]
        exact iff_of_true rfl (Or.inr hg2)
      · rw [if_neg hg2]
        apply iff_of_false
        · rcases Nat.lt_or_ge room.length 256 with h256 | h256
          · rcases Nat.lt_or_ge token.length 256 with h256t | h256t
            · rw [if_pos h256, if_pos h256t]
              intro hc
              exact Except.noConfusion hc
            · rw [if_pos h256, if_neg (by omega)]
              intro hc
              exact EncodeError.noConfusion (Except.error.inj hc)
          · rw [if_neg (by omega)]
            intro hc
            exact EncodeError.noConfusion (Except.error.inj hc)
        · exact fun hc => hc.elim hg1 hg2
  · intro room op st2 payload hop hst hr hp
    simp only [encode_tcp_message, toBytes1, TCP_ROOMNAME_SIZE, TCP_PAYLOAD_MAX,
      TCP_PAYLOAD_FIELD_WIDTH]
    rw [show (2 : Nat) ^ 8 = 256 from by norm_num]
    rw [if_neg (by omega), if_neg (by omega), if_pos (by omega),
        if_pos (by omega), if_pos (by omega)]
    rfl
  · intro room op st2 payload hr hp
    simp only [encode_tcp_message, toBytes1, TCP_ROOMNAME_SIZE, TCP_PAYLOAD_MAX,
      TCP_PAYLOAD_FIELD_WIDTH]
    rw [show (2 : Nat) ^ 8 = 256 from by norm_num]
    rw [if_neg (by omega), if_neg (by omega), if_neg (by omega)]
    rfl

set_option maxRecDepth 8192 in
/-- Witness for C6 amended: concrete instances of all four parts — an
oversized name yields `ValidationError` on both planes, a 255-byte name
encodes, and a 256-byte name yields `OverflowError`. -/
theorem C6_encode_limits_amended_witness :
    (encode_tcp_message (List.replicate 257 97) 1 0 [] =
        Except.error EncodeError.validationError ↔
      (List.replicate 257 97).length > 256 ∨ ([] : List Nat).length > 2 ^ 29) ∧
    (encode_udp_message (List.replicate 257 97) [116] [] =
        Except.error EncodeError.validationError ↔
      (List.replicate 257 97).length > 256 ∨ ([116] : List Nat).length > 256) ∧
    isOkE (encode_tcp_message (List.replicate 255 97) 1 0 [97]) = true ∧
    encode_tcp_message (List.replicate 256 97) 1 0 [97] =
      Except.error EncodeError.overflowError :=
  ⟨C6_encode_limits_amended.1 (List.replicate 257 97) 1 0 []
      (by decide) (by decide),
   C6_encode_limits_amended.2.1 (List.replicate 257 97) [116] [],
   C6_encode_limits_amended.2.2.1 (List.replicate 255 97) 1 0 [97]
      (by decide) (by decide) (by decide) (by norm_num),
   C6_encode_limits_amended.2.2.2 (List.replicate 256 97) 1 0 [97]
      (by decide) (by norm_num)⟩

/-- C7 counterexample: a 33-byte buffer that satisfies all three of the
claim's success conditions — length 33 ≥ 32, size field "0"*29 parsing as
the non-negative integer 0, and length ≥ 32 + 1 + 0 — but whose single
room-name byte 0xFF is not valid UTF-8.  `decode_tcp_message` raises (the
`UnicodeDecodeError` from `room_name_bytes.decode("utf-8")`), a failure
mode outside the claim's "if and only if" list. -/
theorem C7_counterexample :
    decode_tcp_message ([1, 1, 0] ++ decField 29 0 ++ [255]) =
      Except.error FormatError.unicodeError ∧
    ([1, 1, 0] ++ decField 29 0 ++ [255]).length = 33 ∧
    pyIntParse ((([1, 1, 0] ++ decField 29 0 ++ [255]).drop 3).take 29) = some 0 := by
  exact ⟨by decide, by decide, by decide⟩

/-- C7 amended: for a control-plane buffer whose 29-byte size field is
ASCII, decode fails exactly when the buffer is shorter than 32 bytes, or
the size field is not parseable by `int()` (which also accepts a sign and
underscores, so a parsed value may be negative — the comparison below is
over `Int`), or the buffer is shorter than 32 plus the declared room-name
length plus the parsed (possibly negative) payload length, or the declared
room-name bytes are not valid UTF-8.  The boundary case holds: the 32-byte
frame with RoomNameSize 0 and size field "0"*29 decodes to an empty room
name and empty payload. -/
theorem C7_decode_failure_amended :
    (∀ data : List Nat,
        (∀ b ∈ (data.drop 3).take 29, b < 128) →
        (isOkE (decode_tcp_message data) = false ↔
          data.length < 32 ∨
          pyIntParse ((data.drop 3).take 29) = none ∨
          (∃ n : Int, pyIntParse ((data.drop 3).take 29) = some n ∧
            (data.length : Int) < 32 + (data.getD 0 0 : Int) + n) ∨
          utf8Valid ((data.drop 32).take (data.getD 0 0)) = false)) ∧
    decode_tcp_message ([0, 1, 0] ++ decField 29 0) = Except.ok ⟨[], 1, 0, []⟩ := by
  constructor
  · intro data hascii
    have hu : utf8Valid ((data.drop 3).take 29) = true := utf8Valid_of_ascii _ hascii
    by_cases h1 : data.length < 32
    · have hd : decode_tcp_message data = .error .headerTooShort := by
        simp only [decode_tcp_message, TCP_HEADER_SIZE]
        rw [if_pos h1]
      rw [hd]
      exact iff_of_true rfl (Or.inl h1)
    · cases hp : pyIntParse ((data.drop 3).take 29) with
      | none =>
        have hd : decode_tcp_message data = .error .invalidSizeField := by
          simp only [decode_tcp_message, TCP_HEADER_SIZE]
          rw [if_neg h1, if_pos hu, hp]
        rw [hd]
        exact iff_of_true rfl (Or.inr (Or.inl rfl))
      | some n =>
        by_cases h3 : (data.length : Int) < 32 + (data.getD 0 0 : Int) + n
        · have hd : decode_tcp_message data = .error .bodyTooShort := by
            simp only [decode_tcp_message, TCP_HEADER_SIZE]
            rw [if_neg h1, if_pos hu, hp]
            split
            · next heq => exact absurd heq (by simp)
            · next n2 heq =>
              cases Option.some.inj heq
              rw [if_pos (by omega)]
          rw [hd]
          exact iff_of_true rfl (Or.inr (Or.inr (Or.inl ⟨n, rfl, h3⟩)))
        · cases h4 : utf8Valid ((data.drop 32).take (data.getD 0 0)) with
          | true =>
            have hd : decode_tcp_message data =
                .ok ⟨(data.drop 32).take (data.getD 0 0), data.getD 1 0,
                     data.getD 2 0,
                     pySliceNatStart (data.drop 32) (data.getD 0 0)
                       ((data.getD 0 0 : Int) + n)⟩ := by
              simp only [decode_tcp_message, TCP_HEADER_SIZE]
              rw [if_neg h1, if_pos hu, hp]
              split
              · next heq => exact absurd heq (by simp)
              · next n2 heq =>
                cases Option.some.inj heq
                rw [if_neg (by omega), if_pos h4]
            rw [hd]
            apply iff_of_false
            · simp [isOkE]
            · intro hc
              rcases hc with hc | hc | ⟨n2, hn2, hlt⟩ | hc
              · exact h1 hc
              · exact Option.noConfusion hc
              · cases Option.some.inj hn2
                exact h3 hlt
              · exact Bool.noConfusion hc
          | false =>
            have hd : decode_tcp_message data = .error .unicodeError := by
              simp only [decode_tcp_message, TCP_HEADER_SIZE]
              rw [if_neg h1, if_pos hu, hp]
              split
              · next heq => exact absurd heq (by simp)
              · next n2 heq =>
                cases Option.some.inj heq
                rw [if_neg (by omega), if_neg (by rw [h4]; exact Bool.false_ne_true)]
            rw [hd]
            exact iff_of_true rfl (Or.inr (Or.inr (Or.inr rfl)))
  · decide

/-- Witness for C7 amended at the claim's boundary buffer: the 32-byte
frame with RoomNameSize 0, Operation 1 and size field "0"*29. -/
theorem C7_decode_failure_amended_witness :
    (isOkE (decode_tcp_message ([0, 1, 0] ++ decField 29 0)) = false ↔
      ([0, 1, 0] ++ decField 29 0).length < 32 ∨
      pyIntParse ((([0, 1, 0] ++ decField 29 0).drop 3).take 29) = none ∨
      (∃ n : Int, pyIntParse ((([0, 1, 0] ++ decField 29 0).drop 3).take 29) = some n ∧
        (([0, 1, 0] ++ decField 29 0).length : Int) <
          32 + (([0, 1, 0] ++ decField 29 0).getD 0 0 : Int) + n) ∨
      utf8Valid ((([0, 1, 0] ++ decField 29 0).drop 32).take
        (([0, 1, 0] ++ decField 29 0).getD 0 0)) = false) :=
  C7_decode_failure_amended.1 ([0, 1, 0] ++ decField 29 0) (by decide)

/-- C8 counterexample: room `"r"` has participants `2.2.2.2` and `3.3.3.3`.
All sends run inside the handler's single `try` block, so when the send to
`("2.2.2.2", 9001)` raises, the send to `("3.3.3.3", 9001)` is never
attempted (first conjunct) — even though it is a recipient of the same
broadcast when no send fails (second conjunct).  This refutes the claim
that one failed delivery does not prevent the remaining sends. -/
theorem C8_counterexample :
    handle_udp_messageF (fun d => decide (d = (("2.2.2.2" : String), (9001 : Int))))
        sampleRegistry2 sampleDatagram ("1.1.1.1", 5000)
      = [(("2.2.2.2", 9001), [104, 105])] ∧
    (("3.3.3.3", (9001 : Int)), ([104, 105] : List Nat)) ∈
      handle_udp_message sampleRegistry2 sampleDatagram ("1.1.1.1", 5000) := by
  exact ⟨by decide, by decide⟩

/-- C8 amended: for a validated relay datagram, the attempted sends are
exactly the broadcast targets up to and including the first recipient whose
send fails — recipients after the first failure are not attempted; the
failure is confined to the handler (caught and logged, nothing raised to
the caller) and nothing is ever sent to the sender's own address.  When no
send fails this is the full broadcast list. -/
theorem C8_send_failure_amended :
    ∀ (fails : (String × Int) → Bool) (st : Registry) (data : List Nat)
      (addr : String × Int) (m : UdpMessage) (room : Room),
      decode_udp_message data = .ok m →
      get_chat_room st m.room_name = some room →
      validSender room addr m.token = true →
      handle_udp_messageF fails st data addr =
        ((broadcastTargets room addr).takeWhile (fun t => !fails t)
          ++ ((broadcastTargets room addr).drop
                ((broadcastTargets room addr).takeWhile (fun t => !fails t)).length).take 1).map
          (fun t => (t, m.message)) ∧
      ∀ x ∈ handle_udp_messageF fails st data addr, x.1 ≠ addr := by
  intro fails st data addr m room hd hl hv
  have hmain : handle_udp_messageF fails st data addr =
      (attemptsUpTo fails (broadcastTargets room addr)).map
        (fun t => (t, m.message)) := by
    simp only [handle_udp_messageF, hd, hl]
    rw [if_pos hv]
  constructor
  · rw [hmain, attemptsUpTo_eq_takeWhile]
  · intro x hx
    rw [hmain] at hx
    obtain ⟨t, ht, rfl⟩ := List.mem_map.mp hx
    exact mem_broadcastTargets_ne_addr (mem_attemptsUpTo ht)


/-- Witness for C8 amended: the failure-free broadcast of `"hi"` from the
host of room `"r"`. -/
theorem C8_send_failure_amended_witness :
    handle_udp_messageF (fun _ => false) sampleRegistry sampleDatagram ("1.1.1.1", 5000) =
      ((broadcastTargets sampleRoom ("1.1.1.1", 5000)).takeWhile
          (fun t => !(fun _ => false) t)
        ++ ((broadcastTargets sampleRoom ("1.1.1.1", 5000)).drop
              ((broadcastTargets sampleRoom ("1.1.1.1", 5000)).takeWhile
                (fun t => !(fun _ => false) t)).length).take 1).map
        (fun t => (t, [104, 105])) ∧
    ∀ x ∈ handle_udp_messageF (fun _ => false) sampleRegistry sampleDatagram
        ("1.1.1.1", 5000), x.1 ≠ ("1.1.1.1", 5000) :=
  C8_send_failure_amended (fun _ => false) sampleRegistry sampleDatagram
    ("1.1.1.1", 5000) ⟨[114], [116], [104, 105]⟩ sampleRoom
    (by decide) (by decide) (by decide)

/-- C9 counterexample: a frame that decodes successfully (RoomNameSize 0,
Operation 1, one payload byte 0xFF) but whose payload is not valid UTF-8.
`op_payload.decode("utf-8")` raises inside the handler before any dispatch,
the exception handler swallows it, and NO response frame is sent — refuting
the claim that every successfully decoded frame gets exactly one response. -/
theorem C9_counterexample :
    isOkE (decode_tcp_message ([0, 1, 0] ++ decField 29 1 ++ [255])) = true ∧
    handle_tcp_connection [] ([0, 1, 0] ++ decField 29 1 ++ [255]) "1.2.3.4" [116]
      = (none, []) := by
  exact ⟨by decide, by decide⟩

/-- C9 amended: for every control-plane frame that decodes successfully AND
whose payload bytes are ASCII — the domain on which `pyIntParse` agrees
exactly with CPython `int()`, per the file's modelling convention; a
non-UTF-8 payload instead gets no response at all, see the counterexample —
the handler sends exactly one response frame with the request's room name
and operation, State = 2, whose payload is: the issued token on a
successful create (room absent, port parseable) or join (room present);
`"ERROR: UDP port not provided"` when a create request's payload lacks a
parseable UDP port; and `"ERROR: unknown operation"` for every operation
code other than 1 and 2. -/
theorem C9_response_mapping_amended :
    ∀ (st : Registry) (data : List Nat) (ip : String) (tok : List Nat)
      (m : TcpMessage),
      decode_tcp_message data = .ok m →
      (∀ b ∈ m.op_payload, b < 128) →
      ∃ (p : List Nat) (st2 : Registry),
        handle_tcp_connection st data ip tok =
          (some (m.room_name, m.operation, 2, p), st2) ∧
        (m.operation ≠ 1 → m.operation ≠ 2 →
          p = strBytes "ERROR: unknown operation") ∧
        (m.operation = 1 → parsedPort m.op_payload = none →
          p = strBytes "ERROR: UDP port not provided") ∧
        (m.operation = 1 → (∃ q, parsedPort m.op_payload = some q) →
          lookupA m.room_name st = none → p = tok) ∧
        (m.operation = 2 → (∃ room, lookupA m.room_name st = some room) →
          p = tok) := by
  intro st data ip tok m hd hascii
  have hu : utf8Valid m.op_payload = true := utf8Valid_of_ascii m.op_payload hascii
  simp only [handle_tcp_connection, hd]
  rw [if_pos hu]
  by_cases h1 : m.operation = 1
  · rw [if_pos h1]
    cases hpp : parsedPort m.op_payload with
    | none =>
      refine ⟨strBytes "ERROR: UDP port not provided", st, rfl, ?_, ?_, ?_, ?_⟩
      · exact fun hno _ => absurd h1 hno
      · exact fun _ _ => rfl
      · rintro _ ⟨q, hq⟩ _
        exact Option.noConfusion hq
      · intro h2 _
        omega
    | some q =>
      simp only [create_chat_room]
      cases hl : lookupA m.room_name st with
      | some room0 =>
        refine ⟨strBytes "ERROR: chat room is already exist. \x7broom_name\x7d",
          st, rfl, ?_, ?_, ?_, ?_⟩
        · exact fun hno _ => absurd h1 hno
        · intro _ hq
          exact Option.noConfusion hq
        · intro _ _ hq
          exact Option.noConfusion hq
        · intro h2 _
          omega
      | none =>
        refine ⟨tok, _, rfl, ?_, ?_, ?_, ?_⟩
        · exact fun hno _ => absurd h1 hno
        · intro _ hq
          exact Option.noConfusion hq
        · exact fun _ _ _ => rfl
        · intro h2 _
          omega
  · rw [if_neg h1]
    by_cases h2 : m.operation = 2
    · rw [if_pos h2]
      simp only [join_chat_room]
      cases hl : lookupA m.room_name st with
      | none =>
        refine ⟨strBytes "ERROR: chat room not found. \x7broom_name\x7d",
          st, rfl, ?_, ?_, ?_, ?_⟩
        · exact fun _ hno2 => absurd h2 hno2
        · intro hop1 _
          exact absurd hop1 h1
        · intro hop1 _ _
          exact absurd hop1 h1
        · rintro _ ⟨room0, hr⟩
          exact Option.noConfusion hr
      | some room0 =>
        refine ⟨tok, _, rfl, ?_, ?_, ?_, ?_⟩
        · exact fun _ hno2 => absurd h2 hno2
        · intro hop1 _
          exact absurd hop1 h1
        · intro hop1 _ _
          exact absurd hop1 h1
        · exact fun _ _ => rfl
    · rw [if_neg h2]
      refine ⟨strBytes "ERROR: unknown operation", st, rfl, ?_, ?_, ?_, ?_⟩
      · exact fun _ _ => rfl
      · intro hop1 _
        exact absurd hop1 h1
      · intro hop1 _ _
        exact absurd hop1 h1
      · intro hop2 _
        exact absurd hop2 h2


/-- Witness for C9 amended at a concrete create request
`("r", 1, 0, "a,5000")` against the empty registry. -/
theorem C9_response_mapping_amended_witness :
    ∃ (p : List Nat) (st2 : Registry),
      handle_tcp_connection [] ([1, 1, 0] ++ decField 29 6 ++ [114] ++ strBytes "a,5000")
          "1.2.3.4" [116] = (some ([114], 1, 2, p), st2) ∧
      ((1 : Nat) ≠ 1 → (1 : Nat) ≠ 2 → p = strBytes "ERROR: unknown operation") ∧
      ((1 : Nat) = 1 → parsedPort (strBytes "a,5000") = none →
        p = strBytes "ERROR: UDP port not provided") ∧
      ((1 : Nat) = 1 → (∃ q, parsedPort (strBytes "a,5000") = some q) →
        lookupA [114] ([] : Registry) = none → p = [116]) ∧
      ((1 : Nat) = 2 → (∃ room, lookupA [114] ([] : Registry) = some room) →
        p = [116]) :=
  C9_response_mapping_amended [] ([1, 1, 0] ++ decField 29 6 ++ [114] ++ strBytes "a,5000")
    "1.2.3.4" [116] ⟨[114], 1, 0, strBytes "a,5000"⟩ (by decide) (by decide)

/-- C10: relay-plane decode of a well-framed datagram (length at least 2
and covering the declared room-name and token sizes) succeeds if and only
if the room-name bytes, token bytes and remaining message bytes are each
valid UTF-8; and whenever decode fails, the relay handler drops the
datagram, producing no sends at all. -/
theorem C10_decode_requires_utf8 :
    ∀ data : List Nat,
      2 ≤ data.length →
      2 + data.getD 0 0 + data.getD 1 0 ≤ data.length →
      (isOkE (decode_udp_message data) = true ↔
        utf8Valid ((data.drop 2).take (data.getD 0 0)) = true ∧
        utf8Valid ((data.drop (2 + data.getD 0 0)).take (data.getD 1 0)) = true ∧
        utf8Valid (data.drop (2 + data.getD 0 0 + data.getD 1 0)) = true) ∧
      (isOkE (decode_udp_message data) = false →
        ∀ (st : Registry) (addr : String × Int),
          handle_udp_message st data addr = []) := by
  intro data h2 hb
  constructor
  · simp only [decode_udp_message, UDP_HEADER_SIZE]
    rw [if_neg (by omega), if_neg (by omega)]
    cases hr : utf8Valid ((data.drop 2).take (data.getD 0 0)) with
    | false => simp [isOkE]
    | true =>
      cases ht : utf8Valid ((data.drop (2 + data.getD 0 0)).take (data.getD 1 0)) with
      | false => simp [isOkE]
      | true =>
        cases hm : utf8Valid (data.drop (2 + data.getD 0 0 + data.getD 1 0)) with
        | false => simp [isOkE]
        | true => simp [isOkE]
  · intro hfail st addr
    obtain ⟨e, he⟩ := error_of_not_isOkE hfail
    simp [handle_udp_message, handle_udp_messageF, he]

/-- Witness for C10: the 3-byte datagram `[0, 0, 0xFF]` is well-framed but
its message byte is not valid UTF-8; decode fails and the handler relays
nothing. -/
theorem C10_decode_requires_utf8_witness :
    (isOkE (decode_udp_message [0, 0, 255]) = true ↔
      utf8Valid (([0, 0, 255].drop 2).take ([0, 0, 255].getD 0 0)) = true ∧
      utf8Valid (([0, 0, 255].drop (2 + [0, 0, 255].getD 0 0)).take
        ([0, 0, 255].getD 1 0)) = true ∧
      utf8Valid ([0, 0, 255].drop
        (2 + [0, 0, 255].getD 0 0 + [0, 0, 255].getD 1 0)) = true) ∧
    handle_udp_message [] [0, 0, 255] ("1.1.1.1", 5) = [] :=
  ⟨(C10_decode_requires_utf8 [0, 0, 255] (by decide) (by decide)).1,
   (C10_decode_requires_utf8 [0, 0, 255] (by decide) (by decide)).2
      (by decide) [] ("1.1.1.1", 5)⟩
